import Mathlib

/-!
Shallow embedding of the EduSong server core (src/server/routes.ts,
src/server/storage.ts, src/server/suno wrapper, src/shared/schema.ts).

The parts embedded are those the claims are about: the in-memory song store
(`MemStorage`), the Suno webhook callback route (`POST /api/suno/callback`),
the audio poll route (`GET /api/songs/:id/audio`), the two song-creation
routes (`POST /api/songs/generate`, `POST /api/songs`), and the lyrics
generator (`generateSongWithAI`).

External collaborators (the OpenAI chat call, `JSON.parse`, the Suno submit
and status calls, `randomUUID`, `Date.now`) are modelled as explicit
parameters carrying their outcome, so every route handler becomes a pure
function from the stored state and those outcomes to the new state and the
HTTP response.

Loosely-typed provider payloads (`req.body` of the webhook, the status-query
response) are modelled by a JSON value type `Js`; JavaScript truthiness and
property access are modelled explicitly.  Property access on `null` throws in
JavaScript while the model returns "absent"; on every code path embedded here
both behaviours end in the same observable outcome (the catch-all handler and
the fall-through both answer `running` / the 500 acknowledgment with the
store untouched), as noted at the relevant definitions.
-/

/-- A JSON value, as delivered by `express.json()` / `axios` / `fetch.json()`. -/
inductive Js where
  | null
  | bool (b : Bool)
  | num (n : Int)
  | str (s : String)
  | arr (elems : List Js)
  | obj (fields : List (String × Js))
deriving Repr

/-- JavaScript truthiness of a JSON value (objects and arrays are always
truthy, `""`, `0`, `false`, `null` are falsy). -/
def Js.truthy : Js → Bool
  | .null => false
  | .bool b => b
  | .num n => decide (n ≠ 0)
  | .str s => decide (s ≠ "")
  | .arr _ => true
  | .obj _ => true

/-- Property access `v[k]`: defined on objects, `undefined` (here `none`)
otherwise.  (On the JavaScript `null` value access throws; on the embedded
code paths the throw is caught and leads to the same observable response as
the `none` fall-through, see the route definitions.) -/
def Js.get (v : Js) (k : String) : Option Js :=
  match v with
  | .obj fields => (fields.find? (fun f => decide (f.1 = k))).map (fun f => f.2)
  | _ => none

/-- Truthiness of a possibly-`undefined` JavaScript value. -/
def truthyOpt : Option Js → Bool
  | some v => v.truthy
  | none => false

/-- Whether a JSON value is the JavaScript `null` (property access on it
throws a TypeError). -/
def Js.isNull : Js → Bool
  | .null => true
  | _ => false

/-- Index access `v[0]` (arrays by position, objects via the coerced key
`"0"`, `undefined` otherwise). -/
def jsIndex0 : Js → Option Js
  | .arr xs => xs.head?
  | .obj fields => (fields.find? (fun f => decide (f.1 = "0"))).map (fun f => f.2)
  | _ => none

/-- `v === "complete"`: strict equality of a possibly-`undefined` value
against a string literal. -/
def isStrEq (o : Option Js) (lit : String) : Bool :=
  match o with
  | some (.str s) => decide (s = lit)
  | _ => false

/-- Truthiness of a nullable string field (a stored `text` column value). -/
def optStrTruthy : Option String → Bool
  | some s => decide (s ≠ "")
  | none => false

/-- A row of the `songs` table (src/shared/schema.ts).  Nullable columns are
`Option`; `audioUrl` is kept as a JSON value because the routes store the
un-coerced provider payload value there.  `createdAt` is an abstract
timestamp. -/
structure Song where
  id : String
  title : String
  topic : String
  lyrics : String
  rhythmPattern : Option String
  culturalNotes : Option String
  musicalStyle : Option String
  sourceDocumentId : Option String
  sourceText : Option String
  audioUrl : Option Js
  sunoJobId : Option String
  createdAt : Nat
deriving Repr

/-- `InsertSong` (the songs insert schema: all columns except `id` and
`createdAt`).  `none` stands for an absent-or-null field, which
`MemStorage.createSong` collapses with `?? null`. -/
structure InsertSong where
  title : String
  topic : String
  lyrics : String
  rhythmPattern : Option String
  culturalNotes : Option String
  musicalStyle : Option String
  sourceDocumentId : Option String
  sourceText : Option String
  audioUrl : Option Js
  sunoJobId : Option String
deriving Repr

/-- `Partial<Song>` as passed to `MemStorage.updateSong`: an outer `none`
means the key is absent from the update object. -/
structure SongPatch where
  id : Option String := none
  title : Option String := none
  topic : Option String := none
  lyrics : Option String := none
  rhythmPattern : Option (Option String) := none
  culturalNotes : Option (Option String) := none
  musicalStyle : Option (Option String) := none
  sourceDocumentId : Option (Option String) := none
  sourceText : Option (Option String) := none
  audioUrl : Option (Option Js) := none
  sunoJobId : Option (Option String) := none
  createdAt : Option Nat := none
deriving Repr

/-- The object spread `{...existing, ...updates}` in `MemStorage.updateSong`. -/
def applyPatch (s : Song) (p : SongPatch) : Song :=
  { id := p.id.getD s.id
    title := p.title.getD s.title
    topic := p.topic.getD s.topic
    lyrics := p.lyrics.getD s.lyrics
    rhythmPattern := p.rhythmPattern.getD s.rhythmPattern
    culturalNotes := p.culturalNotes.getD s.culturalNotes
    musicalStyle := p.musicalStyle.getD s.musicalStyle
    sourceDocumentId := p.sourceDocumentId.getD s.sourceDocumentId
    sourceText := p.sourceText.getD s.sourceText
    audioUrl := p.audioUrl.getD s.audioUrl
    sunoJobId := p.sunoJobId.getD s.sunoJobId
    createdAt := p.createdAt.getD s.createdAt }

/-- The update object `{ audioUrl }` built by both resolution paths. -/
def audioPatch (u : Js) : SongPatch := { audioUrl := some (some u) }

/-- The songs `Map` of `MemStorage`, as its list of entries in insertion
order.  The `Map` keys its entries by `Song.id`; id-uniqueness is carried as
an explicit hypothesis (`NodupIds`) where a claim needs it. -/
def NodupIds (store : List Song) : Prop := (store.map Song.id).Nodup

/-- `this.songs.get(id)` — also `MemStorage.getSong`. -/
def findById (store : List Song) (id : String) : Option Song :=
  store.find? (fun s => decide (s.id = id))

/-- `MemStorage.getSong`. -/
def getSong (store : List Song) (id : String) : Option Song :=
  findById store id

/-- `MemStorage.getSongs`: all songs sorted by `createdAt` descending. -/
def getSongs (store : List Song) : List Song :=
  store.mergeSort (fun a b => decide (b.createdAt ≤ a.createdAt))

/-- `MemStorage.createSong`: build the row (collapsing absent optional fields
with `?? null`) and insert it.  `id` stands for the fresh `randomUUID()`,
`now` for `new Date()`. -/
def createSong (store : List Song) (ins : InsertSong) (id : String) (now : Nat) :
    List Song × Song :=
  let song : Song :=
    { id := id
      title := ins.title
      topic := ins.topic
      lyrics := ins.lyrics
      rhythmPattern := ins.rhythmPattern
      culturalNotes := ins.culturalNotes
      musicalStyle := ins.musicalStyle
      sourceDocumentId := ins.sourceDocumentId
      sourceText := ins.sourceText
      audioUrl := ins.audioUrl
      sunoJobId := ins.sunoJobId
      createdAt := now }
  (store ++ [song], song)

/-- `MemStorage.updateSong`: look the song up by id, merge the partial update
over it with an object spread, store it back under the same key. -/
def updateSong (store : List Song) (id : String) (p : SongPatch) :
    List Song × Option Song :=
  match findById store id with
  | none => (store, none)
  | some existing =>
    let updated := applyPatch existing p
    (store.map (fun s => if s.id = id then updated else s), some updated)

/-- `MemStorage.deleteSong`. -/
def deleteSong (store : List Song) (id : String) : List Song :=
  store.filter (fun s => decide (s.id ≠ id))

/-- HTTP outcome of `POST /api/suno/callback`. -/
inductive CallbackResponse where
  | received
  | notFound
  | serverError
deriving Repr, DecidableEq

/-- The HTTP status code each callback outcome is sent with. -/
def CallbackResponse.httpStatus : CallbackResponse → Nat
  | .received => 200
  | .notFound => 404
  | .serverError => 500

/-- `data.task_id` of a webhook body (absent when the body has no `data`
object or no `task_id` field). -/
def bodyTaskId (body : Js) : Option Js :=
  (body.get "data").bind (fun d => d.get "task_id")

/-- `s.sunoJobId === taskId` for the webhook's linear scan: strict equality
between a stored string-or-null column and an arbitrary payload value
(`null === null` is true, `null === undefined` is false, strings compare by
value, everything else is false). -/
def strictEqJobId (taskId : Option Js) (jobId : Option String) : Bool :=
  match taskId, jobId with
  | some .null, none => true
  | some (.str t), some j => decide (t = j)
  | _, _ => false

/-- `data.callbackType === "complete" && data.data && data.data[0]?.audio_url`:
the audio URL a callback payload delivers, when it signals completion and the
URL is truthy; `none` otherwise. -/
def callbackAudio (data : Js) : Option Js :=
  if isStrEq (data.get "callbackType") "complete" then
    match data.get "data" with
    | some dd =>
      if dd.truthy then
        match (jsIndex0 dd).bind (fun x => x.get "audio_url") with
        | some u => if u.truthy then some u else none
        | none => none
      else none
    | none => none
  else none

/-- `POST /api/suno/callback` (src/server/routes.ts lines 260-285).
When the body has no `data` field, or `data` is null, `data.task_id` throws a
TypeError which the catch turns into a 500; otherwise the handler scans all
songs for a matching `sunoJobId`, answers 404 when none matches, and
otherwise writes the delivered audio URL (when the payload is a completion
with a truthy URL) before acknowledging with 200. -/
def sunoCallback (store : List Song) (body : Js) : List Song × CallbackResponse :=
  match body.get "data" with
  | none => (store, .serverError)
  | some data =>
    if data.isNull then (store, .serverError)
    else
      let taskId := data.get "task_id"
      match (getSongs store).find? (fun s => strictEqJobId taskId s.sunoJobId) with
      | none => (store, .notFound)
      | some song =>
        match callbackAudio data with
        | some u => ((updateSong store song.id (audioPatch u)).1, .received)
        | none => (store, .received)

/-- Outcome of the external status query `getSunoMusicDetails` as observed by
the poll route: either the call threw (network error, provider 404, a `null`
payload making the property accesses throw) or it returned a JSON value. -/
inductive ProviderCall where
  | throws
  | returns (sunoData : Js)

/-- JSON body of a poll response. -/
inductive PollResult where
  | success (audioUrl : Js)
  | running
deriving Repr

/-- `sunoData.data || sunoData`: unwrap one optional level of nesting. -/
def taskDataOf (sunoData : Js) : Js :=
  match sunoData.get "data" with
  | some v => if v.truthy then v else sunoData
  | none => sunoData

/-- The ordered audio-URL normalization of the poll route: first element of
an array-valued `data` field, then a bare `data.audio_url`, then a top-level
`audio_url`; each candidate is taken only when truthy. -/
def normAudioUrl (taskData : Js) : Option Js :=
  let songArray := taskData.get "data"
  let seqUrl : Option Js :=
    match songArray with
    | some (.arr xs) => xs.head?.bind (fun x => x.get "audio_url")
    | _ => none
  if truthyOpt seqUrl then seqUrl
  else
    let objUrl := songArray.bind (fun v => v.get "audio_url")
    if truthyOpt objUrl then objUrl
    else
      let topUrl := taskData.get "audio_url"
      if truthyOpt topUrl then topUrl
      else none

/-- `GET /api/songs/:id/audio` (src/server/routes.ts lines 287-344).
Short-circuits on an already-stored truthy `audioUrl`; answers `running`
when there is no truthy `sunoJobId` (also when the song does not exist);
otherwise queries the provider, normalizes the audio URL, and on a
recognized completion persists it and answers success; every other shape,
and any thrown provider error, answers `running`. -/
def pollAudio (store : List Song) (id : String) (provider : ProviderCall) :
    List Song × PollResult :=
  let song := getSong store id
  match song.bind Song.audioUrl with
  | some stored =>
    if stored.truthy then (store, .success stored)
    else pollAudioFetch store id (song.bind Song.sunoJobId) provider
  | none => pollAudioFetch store id (song.bind Song.sunoJobId) provider
where
  /-- The part of the handler from the `!song?.sunoJobId` guard on. -/
  pollAudioFetch (store : List Song) (id : String) (jobId : Option String)
      (provider : ProviderCall) : List Song × PollResult :=
    if optStrTruthy jobId then
      match provider with
      | .throws => (store, .running)
      | .returns sunoData =>
        let taskData := taskDataOf sunoData
        let isFinished := isStrEq (taskData.get "callbackType") "complete"
        match normAudioUrl taskData with
        | some u =>
          if isFinished then ((updateSong store id (audioPatch u)).1, .success u)
          else (store, .running)
        | none => (store, .running)
    else (store, .running)

/-- The structured result of `generateSongWithAI`. -/
structure GeneratedSong where
  title : String
  topic : String
  lyrics : String
  rhythmPattern : String
  culturalNotes : String
deriving Repr, DecidableEq

/-- The object `JSON.parse` can yield, restricted to the five string fields
the code reads; `none` stands for an absent (or non-string falsy) field. -/
structure ParsedFields where
  title : Option String
  topic : Option String
  lyrics : Option String
  rhythmPattern : Option String
  culturalNotes : Option String
deriving Repr, DecidableEq

/-- `parsed.field || default`: keep a truthy (non-empty) present string,
fall back otherwise. -/
def jsFieldOr (o : Option String) (d : String) : String :=
  match o with
  | some s => if s = "" then d else s
  | none => d

/-- The all-defaults result used for empty model output. -/
def placeholderSong : GeneratedSong :=
  { title := "Untitled Song", topic := "General", lyrics := ""
    rhythmPattern := "", culturalNotes := "" }

/-- The whitespace `String.prototype.trim` strips: the ECMA-262 WhiteSpace
characters (TAB, VT, FF, SP, NBSP, ZWNBSP and the Unicode Space_Separator
category) and the LineTerminators (LF, CR, LS, PS). -/
def isWsChar (c : Char) : Bool :=
  decide (c.toNat = 0x9) || decide (c.toNat = 0xA) || decide (c.toNat = 0xB) ||
  decide (c.toNat = 0xC) || decide (c.toNat = 0xD) || decide (c.toNat = 0x20) ||
  decide (c.toNat = 0xA0) || decide (c.toNat = 0x1680) ||
  (decide (0x2000 ≤ c.toNat) && decide (c.toNat ≤ 0x200A)) ||
  decide (c.toNat = 0x2028) || decide (c.toNat = 0x2029) ||
  decide (c.toNat = 0x202F) || decide (c.toNat = 0x205F) ||
  decide (c.toNat = 0x3000) || decide (c.toNat = 0xFEFF)

/-- Strip leading and trailing whitespace from a character list. -/
def trimChars (cs : List Char) : List Char :=
  ((cs.dropWhile isWsChar).reverse.dropWhile isWsChar).reverse

/-- `text.trim()`. -/
def jsTrim (s : String) : String := String.mk (trimChars s.data)

/-- `content.substring(0, n)`. -/
def substrTo (s : String) (n : Nat) : String := String.mk (s.data.take n)

/-- The backtick character of a markdown code fence. -/
def fenceChar : Char := Char.ofNat 96

/-- The global regex replace of the code-fence markers: at each position the
seven-character json-fence opener is removed first, else a bare three-char
fence, else the character is kept. -/
def stripFences : List Char → List Char
  | [] => []
  | c :: rest =>
    if c = fenceChar ∧ rest.take 6 = [fenceChar, fenceChar, 'j', 's', 'o', 'n'] then
      stripFences (rest.drop 6)
    else if c = fenceChar ∧ rest.take 2 = [fenceChar, fenceChar] then
      stripFences (rest.drop 2)
    else c :: stripFences rest
termination_by cs => cs.length
decreasing_by
  all_goals simp [List.length_drop]
  all_goals omega

/-- `text.replace(/```json|```/g, "").trim()`. -/
def cleanFences (s : String) : String :=
  jsTrim (String.mk (stripFences s.data))

/-- `generateSongWithAI` (src/server/routes.ts lines 64-165), from the point
where the chat-completion call resolves.  `parse` stands for `JSON.parse`
projected to the five fields the code reads (`none` = a parse exception);
`aiCall` is the outcome of the external call: `.error` when it threw (the
catch re-throws with the same message), `.ok content` the optional message
content otherwise. -/
def generateSongWithAI (parse : String → Option ParsedFields)
    (aiCall : Except String (Option String)) : Except String GeneratedSong :=
  match aiCall with
  | .error e => .error e
  | .ok content =>
    let text := content.getD ""
    let cleanJson := cleanFences text
    if jsTrim text = "" then .ok placeholderSong
    else
      let parsed : ParsedFields :=
        match parse cleanJson with
        | some p => p
        | none =>
          { title := some "Untitled Song", topic := some "General"
            lyrics := some text, rhythmPattern := some "", culturalNotes := some "" }
      .ok { title := jsFieldOr parsed.title "Untitled Song"
            topic := jsFieldOr parsed.topic "General"
            lyrics := jsFieldOr parsed.lyrics ""
            rhythmPattern := jsFieldOr parsed.rhythmPattern ""
            culturalNotes := jsFieldOr parsed.culturalNotes "" }

/-- A request body accepted by `generateSongRequestSchema` (post-validation,
with the enum defaults already applied). -/
structure GenRequest where
  content : String
  documentId : Option String
  musicalStyle : String
  complexity : String
deriving Repr, DecidableEq

/-- HTTP outcome of `POST /api/songs/generate`. -/
inductive GenerateResponse where
  | badRequest
  | created (song : Song)
  | serverError (msg : String)
deriving Repr

/-- `value || null` applied to an optional string request field. -/
def strOrNull (o : Option String) : Option String :=
  match o with
  | some s => if s = "" then none else some s
  | none => none

/-- `POST /api/songs/generate` (src/server/routes.ts lines 347-394).
`validation` is the `safeParse` outcome; `sunoResult` the outcome of
`generateMusicWithSuno` (`.error` when the submit call failed, `.ok jobId`
with the provider-returned `taskId` otherwise); `id`/`now` the fresh UUID
and timestamp of `createSong`.  Any thrown error answers 500 with nothing
persisted. -/
def songsGenerate (store : List Song) (validation : Option GenRequest)
    (parse : String → Option ParsedFields) (aiCall : Except String (Option String))
    (sunoResult : Except String String) (id : String) (now : Nat) :
    List Song × GenerateResponse :=
  match validation with
  | none => (store, .badRequest)
  | some req =>
    match generateSongWithAI parse aiCall with
    | .error e => (store, .serverError e)
    | .ok generated =>
      match sunoResult with
      | .error e => (store, .serverError e)
      | .ok jobId =>
        let result := createSong store
          { title := generated.title
            topic := generated.topic
            lyrics := generated.lyrics
            rhythmPattern := some generated.rhythmPattern
            culturalNotes := some generated.culturalNotes
            musicalStyle := some req.musicalStyle
            sourceDocumentId := strOrNull req.documentId
            sourceText := some (substrTo req.content 500)
            audioUrl := none
            sunoJobId := some jobId } id now
        (result.1, .created result.2)

/-- The fields `POST /api/songs` reads off its request body. -/
structure ManualSongBody where
  title : String
  topic : String
  lyrics : String
  rhythmPattern : Option String
  culturalNotes : Option String
  musicalStyle : Option String
  sourceDocumentId : Option String
  sourceText : Option String
deriving Repr

/-- `POST /api/songs` (src/server/routes.ts lines 396-412): the manual save
path.  The insert object carries no `audioUrl` and no `sunoJobId` key, so
both are stored as null; the handler answers 201 with the created song. -/
def songsCreate (store : List Song) (body : ManualSongBody) (id : String) (now : Nat) :
    List Song × Song :=
  createSong store
    { title := body.title
      topic := body.topic
      lyrics := body.lyrics
      rhythmPattern := strOrNull body.rhythmPattern
      culturalNotes := strOrNull body.culturalNotes
      musicalStyle := strOrNull body.musicalStyle
      sourceDocumentId := strOrNull body.sourceDocumentId
      sourceText := strOrNull body.sourceText
      audioUrl := none
      sunoJobId := none } id now

/-- The song stores the server can actually produce: every store is obtained
from the empty one by the song-mutating route handlers. -/
inductive Reachable : List Song → Prop
  | empty : Reachable []
  | generate (st validation parse aiCall sunoResult id now) :
      Reachable st →
      Reachable (songsGenerate st validation parse aiCall sunoResult id now).1
  | manual (st body id now) :
      Reachable st → Reachable (songsCreate st body id now).1
  | callback (st body) :
      Reachable st → Reachable (sunoCallback st body).1
  | poll (st id provider) :
      Reachable st → Reachable (pollAudio st id provider).1
  | remove (st id) :
      Reachable st → Reachable (deleteSong st id)

/-- Every stored `audioUrl` is either null or a truthy value: creations store
null and both resolution paths only write truthy URLs. -/
def AudioOk (store : List Song) : Prop :=
  ∀ s ∈ store, ∀ u, s.audioUrl = some u → u.truthy

/-- All fields of two songs agree except possibly `audioUrl`. -/
def allButAudio (a b : Song) : Prop :=
  a.id = b.id ∧ a.title = b.title ∧ a.topic = b.topic ∧ a.lyrics = b.lyrics ∧
  a.rhythmPattern = b.rhythmPattern ∧ a.culturalNotes = b.culturalNotes ∧
  a.musicalStyle = b.musicalStyle ∧ a.sourceDocumentId = b.sourceDocumentId ∧
  a.sourceText = b.sourceText ∧ a.sunoJobId = b.sunoJobId ∧ a.createdAt = b.createdAt

/-! ## Concrete fixtures and claim-specific predicates -/

/-- Concrete fixture: a submitted, unresolved song. -/
def songA : Song :=
  { id := "id1", title := "t", topic := "to", lyrics := "ly",
    rhythmPattern := none, culturalNotes := none, musicalStyle := none,
    sourceDocumentId := none, sourceText := none, audioUrl := none,
    sunoJobId := some "job1", createdAt := 0 }

/-- Concrete fixture: a completion webhook body for `songA`'s job. -/
def okBodyA : Js := .obj [("data", .obj [
  ("task_id", .str "job1"), ("callbackType", .str "complete"),
  ("data", .arr [.obj [("audio_url", .str "http://a")]])])]

/-- Concrete fixture: a valid generate request. -/
def reqA : GenRequest :=
  { content := "ten chars!", documentId := none, musicalStyle := "traditional",
    complexity := "simple" }

/-- The song the generate route creates from `reqA` with unparseable model
output "la la" and provider job id "job1". -/
def songGen : Song :=
  { id := "id1", title := "Untitled Song", topic := "General", lyrics := "la la",
    rhythmPattern := some "", culturalNotes := some "", musicalStyle := some "traditional",
    sourceDocumentId := none, sourceText := some "ten chars!", audioUrl := none,
    sunoJobId := some "job1", createdAt := 0 }

/-- `songGen` after its completion webhook delivered the audio URL. -/
def songResolved : Song := { songGen with audioUrl := some (.str "http://a") }

/-- Concrete fixture: a manual-save request body. -/
def bodyManualA : ManualSongBody :=
  { title := "Counting Song", topic := "Math", lyrics := "one two",
    rhythmPattern := none, culturalNotes := none, musicalStyle := none,
    sourceDocumentId := none, sourceText := none }

/-- The status-response shape of the spec's normalization test:
`{data: {data: [{audio_url: X}], callbackType: ct}}`. -/
def pollShape (x ct : String) : Js :=
  .obj [("data", .obj [("data", .arr [.obj [("audio_url", .str x)]]),
                       ("callbackType", .str ct)])]

/-- Per-field fallback behaviour of the generator: an absent or empty-string
field falls back to the default, a non-empty present field is kept. -/
def FieldFallback (field : Option String) (d r : String) : Prop :=
  ((field = none ∨ field = some "") → r = d) ∧ (∀ v, v ≠ "" → field = some v → r = v)

/-- The webhook payload identifies at most one stored song: its task id
matches no two distinct songs (jobIds act as unique correlation keys). -/
def UniqueJobMatch (store : List Song) (taskId : Option Js) : Prop :=
  ∀ a ∈ store, ∀ b ∈ store, strictEqJobId taskId a.sunoJobId = true →
    strictEqJobId taskId b.sunoJobId = true → a = b

/-! ## Helper lemmas -/

lemma applyPatch_audio (s : Song) (u : Js) :
    applyPatch s (audioPatch u) = { s with audioUrl := some u } := rfl

lemma applyPatch_audio_idem (s : Song) (u : Js) :
    applyPatch (applyPatch s (audioPatch u)) (audioPatch u) = applyPatch s (audioPatch u) := rfl

lemma mem_getSongs {a : Song} {store : List Song} : a ∈ getSongs store ↔ a ∈ store :=
  List.mem_mergeSort

lemma getSongs_singleton (a : Song) : getSongs [a] = [a] :=
  List.mergeSort_singleton a

lemma find?_unique {α : Type} {p : α → Bool} {l : List α} {x : α}
    (hx : x ∈ l) (hp : p x = true)
    (hu : ∀ a ∈ l, ∀ b ∈ l, p a = true → p b = true → a = b) :
    l.find? p = some x := by
  cases hf : l.find? p with
  | none => exact absurd hp ((List.find?_eq_none.mp hf) x hx)
  | some y =>
    have hy := List.find?_some hf
    have hmy := List.mem_of_find?_eq_some hf
    rw [hu y hmy x hx hy hp]

lemma findById_id {store : List Song} {id : String} {s : Song}
    (h : findById store id = some s) : s.id = id := by
  unfold findById at h
  have h2 := List.find?_some h
  simpa using h2

lemma findById_mem {store : List Song} {id : String} {s : Song}
    (h : findById store id = some s) : s ∈ store := by
  unfold findById at h
  exact List.mem_of_find?_eq_some h

lemma findById_self_of_nodup {store : List Song} (hn : NodupIds store)
    {s : Song} (hs : s ∈ store) : findById store s.id = some s := by
  apply find?_unique hs (by simp)
  intro a ha b hb hpa hpb
  have ha2 : a.id = s.id := of_decide_eq_true hpa
  have hb2 : b.id = s.id := of_decide_eq_true hpb
  exact List.inj_on_of_nodup_map hn ha hb (ha2.trans hb2.symm)

lemma nodup_id_inj {store : List Song} (hn : NodupIds store)
    {a b : Song} (ha : a ∈ store) (hb : b ∈ store) (h : a.id = b.id) : a = b :=
  List.inj_on_of_nodup_map hn ha hb h

lemma findById_map_presId {store : List Song} {f : Song → Song}
    (hf : ∀ t, (f t).id = t.id) (id : String) :
    findById (store.map f) id = (findById store id).map f := by
  induction store with
  | nil => rfl
  | cons a l ih =>
    by_cases h : a.id = id
    · have h2 : (f a).id = id := (hf a).trans h
      simp only [List.map_cons, findById]
      rw [List.find?_cons_of_pos _ (by simp [h2]), List.find?_cons_of_pos _ (by simp [h])]
      simp
    · have h2 : ¬ (f a).id = id := by rw [hf a]; exact h
      simp only [List.map_cons, findById] at ih ⊢
      rw [List.find?_cons_of_neg _ (by simp [h2]), List.find?_cons_of_neg _ (by simp [h])]
      exact ih

lemma updateSong_found {store : List Song} {id : String} {e : Song} (p : SongPatch)
    (h : findById store id = some e) :
    updateSong store id p =
      (store.map (fun s => if s.id = id then applyPatch e p else s), some (applyPatch e p)) := by
  unfold updateSong
  rw [h]

lemma updateSong_missing {store : List Song} {id : String} (p : SongPatch)
    (h : findById store id = none) : updateSong store id p = (store, none) := by
  unfold updateSong
  rw [h]

lemma getSong_update_audio {store : List Song} {id : String} {s : Song} (u : Js)
    (h : getSong store id = some s) :
    getSong (updateSong store id (audioPatch u)).1 id = some { s with audioUrl := some u } := by
  have hfind : findById store id = some s := h
  have hid : s.id = id := findById_id hfind
  rw [updateSong_found (audioPatch u) hfind]
  unfold getSong
  rw [findById_map_presId (f := fun t => if t.id = id then applyPatch s (audioPatch u) else t)
    (fun t => by by_cases ht : t.id = id <;> simp [ht, applyPatch, audioPatch, hid])]
  rw [hfind]
  simp [hid, applyPatch_audio]

lemma forall2_map_self {α : Type} {R : α → α → Prop} {l : List α} {f : α → α}
    (h : ∀ a ∈ l, R a (f a)) : List.Forall₂ R l (l.map f) := by
  induction l with
  | nil => constructor
  | cons a t ih =>
    exact List.Forall₂.cons (h a (by simp)) (ih (fun x hx => h x (by simp [hx])))

lemma callbackAudio_truthy {d u : Js} (h : callbackAudio d = some u) : u.truthy := by
  unfold callbackAudio at h
  split at h
  · split at h
    · split at h
      · split at h
        · split at h
          · simp_all
          · simp_all
        · simp_all
      · simp_all
    · simp_all
  · simp_all

lemma normAudioUrl_truthy {td u : Js} (h : normAudioUrl td = some u) : u.truthy := by
  unfold normAudioUrl at h
  dsimp only at h
  split at h
  · next hc => rw [h] at hc; simpa [truthyOpt] using hc
  · split at h
    · next hc => rw [h] at hc; simpa [truthyOpt] using hc
    · split at h
      · next hc => rw [h] at hc; simpa [truthyOpt] using hc
      · simp_all

lemma audioOk_nil : AudioOk [] := by
  intro s hs
  simp at hs

lemma audioOk_append {store : List Song} {s : Song} (h : AudioOk store)
    (hs : ∀ u, s.audioUrl = some u → u.truthy) : AudioOk (store ++ [s]) := by
  intro t ht u hu
  rcases List.mem_append.mp ht with h1 | h1
  · exact h t h1 u hu
  · simp only [List.mem_singleton] at h1
    subst h1
    exact hs u hu

lemma audioOk_update {store : List Song} (h : AudioOk store) {id : String} {u : Js}
    (hu : u.truthy) : AudioOk (updateSong store id (audioPatch u)).1 := by
  unfold updateSong
  cases hf : findById store id with
  | none => exact h
  | some e =>
    intro t ht v hv
    simp only [List.mem_map] at ht
    obtain ⟨a, ha, rfl⟩ := ht
    by_cases hid : a.id = id
    · rw [if_pos hid, applyPatch_audio] at hv
      simp only at hv
      injection hv with hv
      rw [hv] at hu
      exact hu
    · rw [if_neg hid] at hv
      exact h a ha v hv

lemma createSong_audioOk {store : List Song} {ins : InsertSong} {id : String} {now : Nat}
    (h : AudioOk store) (hins : ins.audioUrl = none) :
    AudioOk (createSong store ins id now).1 := by
  unfold createSong
  exact audioOk_append h (fun u hu => by simp [hins] at hu)

lemma songsGenerate_audioOk {store validation parse aiCall sunoResult id now}
    (h : AudioOk store) :
    AudioOk (songsGenerate store validation parse aiCall sunoResult id now).1 := by
  unfold songsGenerate
  split
  · exact h
  · split
    · exact h
    · split
      · exact h
      · exact createSong_audioOk h rfl

lemma songsCreate_audioOk {store body id now} (h : AudioOk store) :
    AudioOk (songsCreate store body id now).1 := by
  unfold songsCreate
  exact createSong_audioOk h rfl

lemma sunoCallback_audioOk {store body} (h : AudioOk store) :
    AudioOk (sunoCallback store body).1 := by
  unfold sunoCallback
  cases hd : body.get "data" with
  | none => exact h
  | some data =>
    dsimp only
    by_cases hnull : data.isNull = true
    · rw [if_pos hnull]
      exact h
    · rw [if_neg hnull]
      cases hf : List.find? (fun s => strictEqJobId (data.get "task_id") s.sunoJobId)
          (getSongs store) with
      | none => exact h
      | some song =>
        cases hca : callbackAudio data with
        | none => exact h
        | some u => exact audioOk_update h (callbackAudio_truthy hca)

lemma pollFetch_audioOk {store id jobId provider} (h : AudioOk store) :
    AudioOk (pollAudio.pollAudioFetch store id jobId provider).1 := by
  unfold pollAudio.pollAudioFetch
  split
  · split
    · exact h
    · dsimp only
      split
      · split
        · next u hn _ =>
          exact audioOk_update h (normAudioUrl_truthy hn)
        · exact h
      · exact h
  · exact h

lemma pollAudio_audioOk {store id provider} (h : AudioOk store) :
    AudioOk (pollAudio store id provider).1 := by
  unfold pollAudio
  dsimp only
  cases hb : (getSong store id).bind Song.audioUrl with
  | none => exact pollFetch_audioOk h
  | some stored =>
    dsimp only
    by_cases ht : stored.truthy = true
    · rw [if_pos ht]
      exact h
    · rw [if_neg ht]
      exact pollFetch_audioOk h

lemma deleteSong_audioOk {store id} (h : AudioOk store) : AudioOk (deleteSong store id) := by
  intro t ht
  exact h t (List.mem_of_mem_filter ht)

/-- The store invariant justifying the truthiness side of the claims: in every
reachable store, a non-null `audioUrl` is a truthy value. -/
lemma reachable_audioOk {store : List Song} (h : Reachable store) : AudioOk store := by
  induction h with
  | empty => exact audioOk_nil
  | generate st validation parse aiCall sunoResult id now _ ih =>
    exact songsGenerate_audioOk ih
  | manual st body id now _ ih => exact songsCreate_audioOk ih
  | callback st body _ ih => exact sunoCallback_audioOk ih
  | poll st id provider _ ih => exact pollAudio_audioOk ih
  | remove st id _ ih => exact deleteSong_audioOk ih

/-! ## Claim theorems -/

/-- Claim C10: for every song id for which no song exists in storage, the poll
endpoint returns a running status — not a not-found response and not an
error — because both the stored-audio check and the job-id check fall through
on a missing record. -/
theorem poll_missing_song_running (store : List Song) (id : String)
    (h : getSong store id = none) (provider : ProviderCall) :
    pollAudio store id provider = (store, .running) := by
  unfold pollAudio
  dsimp only
  rw [h]
  rfl

/-- Witness for C10 on a concrete empty store. -/
theorem poll_missing_song_running_witness :
    getSong [] "id1" = none ∧ pollAudio [] "id1" .throws = ([], .running) :=
  ⟨rfl, poll_missing_song_running [] "id1" rfl .throws⟩

/-- Claim C6: for every song with a stored job id and null `audioUrl`, if the
provider status query throws (any exception, including a 404 for a
just-submitted job, modelled by `ProviderCall.throws`), the poll endpoint
answers running and mutates nothing; no error propagates to the caller (the
poll result type has no error alternative on this path). -/
theorem poll_error_swallowed (store : List Song) (id : String) (s : Song) (j : String)
    (hs : getSong store id = some s) (hurl : s.audioUrl = none)
    (hj : s.sunoJobId = some j) :
    pollAudio store id .throws = (store, .running) := by
  unfold pollAudio
  dsimp only
  rw [hs]
  simp only [Option.some_bind]
  rw [hurl]
  unfold pollAudio.pollAudioFetch
  rw [hj]
  rcases eq_or_ne j "" with hje | hje
  · simp [optStrTruthy, hje]
  · simp [optStrTruthy, hje]

/-- Witness for C6 on a concrete one-song store. -/
theorem poll_error_swallowed_witness :
    getSong [songA] "id1" = some songA ∧ songA.audioUrl = none
      ∧ songA.sunoJobId = some "job1"
      ∧ pollAudio [songA] "id1" .throws = ([songA], .running) :=
  ⟨rfl, rfl, rfl, poll_error_swallowed [songA] "id1" songA "job1" rfl rfl rfl⟩

/-- Claim C8: for every stored song whose `audioUrl` is already non-null (in
any store the program can produce), the poll endpoint answers success with
exactly the stored URL, leaves the store unchanged, and the result does not
depend on the provider — no status query is made (the short-circuit returns
before the provider call). -/
theorem poll_resolved_short_circuit (store : List Song) (id : String) (s : Song) (u : Js)
    (hr : Reachable store) (hs : getSong store id = some s) (hurl : s.audioUrl = some u)
    (provider : ProviderCall) :
    pollAudio store id provider = (store, .success u) := by
  have ht : u.truthy := reachable_audioOk hr s (findById_mem hs) u hurl
  unfold pollAudio
  dsimp only
  rw [hs]
  simp only [Option.some_bind]
  rw [hurl]
  dsimp only
  rw [if_pos ht]

/-- Witness for C8: a store built by the generate route and its completion
webhook; the poll on it short-circuits even when the provider would throw. -/
theorem poll_resolved_short_circuit_witness :
    pollAudio (sunoCallback (songsGenerate [] (some reqA) (fun _ => none)
        (.ok (some "la la")) (.ok "job1") "id1" 0).1 okBodyA).1 "id1" .throws
      = ((sunoCallback (songsGenerate [] (some reqA) (fun _ => none)
          (.ok (some "la la")) (.ok "job1") "id1" 0).1 okBodyA).1,
         .success (.str "http://a")) := by
  have hr : Reachable (sunoCallback (songsGenerate [] (some reqA) (fun _ => none)
      (.ok (some "la la")) (.ok "job1") "id1" 0).1 okBodyA).1 :=
    Reachable.callback _ okBodyA
      (Reachable.generate [] (some reqA) (fun _ => none) (.ok (some "la la"))
        (.ok "job1") "id1" 0 Reachable.empty)
  have hgen : (songsGenerate [] (some reqA) (fun _ => none) (.ok (some "la la"))
      (.ok "job1") "id1" 0).1 = [songGen] := rfl
  have hcb : (sunoCallback [songGen] okBodyA).1 = [songResolved] := by
    unfold sunoCallback
    rw [getSongs_singleton]
    rfl
  rw [hgen, hcb]
  rw [hgen, hcb] at hr
  exact poll_resolved_short_circuit [songResolved] "id1" songResolved (.str "http://a")
    hr rfl rfl .throws

lemma fieldFallback_jsFieldOr (o : Option String) (d : String) :
    FieldFallback o d (jsFieldOr o d) := by
  constructor
  · rintro (rfl | rfl) <;> simp [jsFieldOr]
  · intro v hv hvo
    subst hvo
    simp [jsFieldOr, hv]

/-- Counterexample for C5 as stated.  First part: the non-empty, unparseable
response text `" "` yields the placeholder result, whose lyrics are `""` and
not the raw text `" "`.  Second part: a successfully parsed object with
`title` present as `""` does not keep the present field — the default
replaces it. -/
theorem lyrics_fallback_cx :
    (generateSongWithAI (fun _ => none) (.ok (some " ")) = .ok placeholderSong
      ∧ " " ≠ "" ∧ placeholderSong.lyrics ≠ " ")
    ∧ (generateSongWithAI
        (fun _ => some { title := some "", topic := none, lyrics := none,
                         rhythmPattern := none, culturalNotes := none })
        (.ok (some "x")) = .ok placeholderSong
      ∧ placeholderSong.title ≠ "") := by
  exact ⟨⟨rfl, by decide, by decide⟩, ⟨rfl, by decide⟩⟩

/-- Claim C5, amended: for every response text with non-whitespace content
(`jsTrim text ≠ ""`, not merely `text ≠ ""`) that is not parseable as JSON
after stripping code fences, the generator succeeds with lyrics equal to the
raw text and the documented defaults elsewhere; for a successfully parsed
object, each field falls back individually — fields absent *or present as the
empty string* get the default, and present non-empty fields are kept. -/
theorem lyrics_fallback_amended :
    (∀ (parse : String → Option ParsedFields) (text : String),
      jsTrim text ≠ "" → parse (cleanFences text) = none →
      generateSongWithAI parse (.ok (some text)) =
        .ok { title := "Untitled Song", topic := "General", lyrics := text,
              rhythmPattern := "", culturalNotes := "" })
    ∧ (∀ (parse : String → Option ParsedFields) (text : String) (p : ParsedFields),
      jsTrim text ≠ "" → parse (cleanFences text) = some p →
      ∃ r, generateSongWithAI parse (.ok (some text)) = .ok r
        ∧ FieldFallback p.title "Untitled Song" r.title
        ∧ FieldFallback p.topic "General" r.topic
        ∧ FieldFallback p.lyrics "" r.lyrics
        ∧ FieldFallback p.rhythmPattern "" r.rhythmPattern
        ∧ FieldFallback p.culturalNotes "" r.culturalNotes) := by
  constructor
  · intro parse text htr hp
    have htext : text ≠ "" := fun h => htr (by rw [h]; rfl)
    unfold generateSongWithAI
    simp only [Option.getD_some]
    rw [if_neg htr, hp]
    simp [jsFieldOr, htext]
  · intro parse text p htr hp
    unfold generateSongWithAI
    simp only [Option.getD_some]
    rw [if_neg htr, hp]
    exact ⟨_, rfl, fieldFallback_jsFieldOr _ _, fieldFallback_jsFieldOr _ _,
      fieldFallback_jsFieldOr _ _, fieldFallback_jsFieldOr _ _, fieldFallback_jsFieldOr _ _⟩

/-- Witness for the amended C5 at a concrete unparseable response. -/
theorem lyrics_fallback_amended_witness :
    generateSongWithAI (fun _ => none) (.ok (some "raw text")) =
      .ok { title := "Untitled Song", topic := "General", lyrics := "raw text",
            rhythmPattern := "", culturalNotes := "" } :=
  lyrics_fallback_amended.1 (fun _ => none) "raw text" (by decide) rfl

/-- Counterexample for C4 as stated: the manual-save route persists a song
(the new store holds it) whose `sunoJobId` is null, and the operation
succeeds — so it is not the case that every creation either has a non-null
job id or fails. -/
theorem creation_nulljob_cx :
    (songsCreate [] bodyManualA "id1" 0).1 = [(songsCreate [] bodyManualA "id1" 0).2]
      ∧ (songsCreate [] bodyManualA "id1" 0).2.sunoJobId = none
      ∧ (songsCreate [] bodyManualA "id1" 0).2.audioUrl = none :=
  ⟨rfl, rfl, rfl⟩

/-- Claim C4, amended: every created song starts with `audioUrl` null.  The
generate route persists a song exactly when validation, the lyrics call and
the job submission all succeed, and then the stored `sunoJobId` is the
provider-returned task id; when the lyrics call or the submission fails, the
store is unchanged and no song response is produced.  The manual-save route,
however, persists a song with null `sunoJobId` without failing. -/
theorem creation_invariant_amended :
    (∀ store validation (parse : String → Option ParsedFields) aiCall sunoResult
        id now st2 song,
      songsGenerate store validation parse aiCall sunoResult id now = (st2, .created song) →
      song.audioUrl = none ∧ (∃ j, sunoResult = .ok j ∧ song.sunoJobId = some j)
        ∧ st2 = store ++ [song])
    ∧ (∀ store validation (parse : String → Option ParsedFields) aiCall e sunoResult
        id now,
      (aiCall = .error e ∨ sunoResult = .error e) →
      (songsGenerate store validation parse aiCall sunoResult id now).1 = store
        ∧ ∀ song2, (songsGenerate store validation parse aiCall sunoResult id now).2
            ≠ .created song2)
    ∧ (∀ store body id now,
      (songsCreate store body id now).2.audioUrl = none
        ∧ (songsCreate store body id now).2.sunoJobId = none
        ∧ (songsCreate store body id now).1 = store ++ [(songsCreate store body id now).2]) := by
  refine ⟨?_, ?_, ?_⟩
  · intro store validation parse aiCall sunoResult id now st2 song h
    cases validation with
    | none => simp [songsGenerate] at h
    | some req =>
      cases hg : generateSongWithAI parse aiCall with
      | error e =>
        unfold songsGenerate at h
        rw [hg] at h
        simp at h
      | ok g =>
        cases sunoResult with
        | error e =>
          unfold songsGenerate at h
          rw [hg] at h
          simp at h
        | ok j =>
          unfold songsGenerate at h
          rw [hg] at h
          dsimp only [createSong] at h
          rw [Prod.ext_iff] at h
          obtain ⟨h1, h2⟩ := h
          dsimp only at h1 h2
          injection h2 with h3
          subst h3
          exact ⟨rfl, ⟨j, rfl, rfl⟩, h1.symm⟩
  · intro store validation parse aiCall e sunoResult id now hfail
    cases validation with
    | none => exact ⟨rfl, fun song2 => by simp [songsGenerate]⟩
    | some req =>
      rcases hfail with hfa | hfs
      · subst hfa
        exact ⟨rfl, fun song2 => by simp [songsGenerate, generateSongWithAI]⟩
      · subst hfs
        cases hg : generateSongWithAI parse aiCall with
        | error e2 =>
          constructor
          · unfold songsGenerate
            rw [hg]
          · intro song2
            unfold songsGenerate
            rw [hg]
            simp
        | ok g =>
          constructor
          · unfold songsGenerate
            rw [hg]
          · intro song2
            unfold songsGenerate
            rw [hg]
            simp
  · intro store body id now
    exact ⟨rfl, rfl, rfl⟩

/-- Witness for the amended C4 at the concrete generate call of the fixtures. -/
theorem creation_invariant_amended_witness :
    songGen.audioUrl = none
      ∧ (∃ j, (Except.ok "job1" : Except String String) = .ok j ∧ songGen.sunoJobId = some j)
      ∧ [songGen] = ([] : List Song) ++ [songGen] :=
  creation_invariant_amended.1 [] (some reqA) (fun _ => none) (.ok (some "la la"))
    (.ok "job1") "id1" 0 [songGen] songGen rfl

/-- Counterexample for C3 as stated: a webhook whose `task_id` matches no
stored job is answered with the 404 not-found acknowledgment, an error
status rather than a success response (the store is indeed untouched). -/
theorem webhook_unknown_job_cx :
    sunoCallback [songA] (.obj [("data", .obj [("task_id", .str "zz")])])
        = ([songA], .notFound)
      ∧ CallbackResponse.notFound.httpStatus = 404
      ∧ CallbackResponse.notFound.httpStatus ≠ 200 := by
  refine ⟨?_, rfl, by decide⟩
  unfold sunoCallback
  rw [getSongs_singleton]
  rfl

/-- Claim C3, amended: for every webhook delivery whose payload carries a
non-null `data` value whose job id matches no stored song's `jobId`, the
endpoint responds with the 404 not-found acknowledgment (not a success
status), and no song record is mutated; a delivery whose `data` field is
null throws at `data.task_id` instead and is answered 500, also without
mutating anything. -/
theorem webhook_unknown_job_not_found (store : List Song) (body data : Js)
    (hd : body.get "data" = some data) (hnn : data.isNull = false)
    (hnone : ∀ s ∈ store, strictEqJobId (data.get "task_id") s.sunoJobId = false) :
    (sunoCallback store body = (store, .notFound)
      ∧ CallbackResponse.notFound.httpStatus = 404)
    ∧ (∀ body2 : Js, body2.get "data" = some .null →
        sunoCallback store body2 = (store, .serverError)) := by
  refine ⟨⟨?_, rfl⟩, ?_⟩
  · unfold sunoCallback
    rw [hd]
    dsimp only
    rw [if_neg (by rw [hnn]; intro h2; cases h2)]
    have hfind : List.find? (fun s => strictEqJobId (data.get "task_id") s.sunoJobId)
        (getSongs store) = none := by
      rw [List.find?_eq_none]
      intro x hx
      rw [hnone x (mem_getSongs.mp hx)]
      simp
    rw [hfind]
  · intro body2 hb2
    unfold sunoCallback
    rw [hb2]
    rfl

/-- Witness for the amended C3 on a concrete store and body, including the
500 acknowledgment of a null `data` field. -/
theorem webhook_unknown_job_not_found_witness :
    (sunoCallback [songA] (.obj [("data", .obj [("task_id", .str "other")])])
        = ([songA], .notFound)
      ∧ CallbackResponse.notFound.httpStatus = 404)
    ∧ sunoCallback [songA] (.obj [("data", .null)]) = ([songA], .serverError) := by
  have h := webhook_unknown_job_not_found [songA]
    (.obj [("data", .obj [("task_id", .str "other")])])
    (.obj [("task_id", .str "other")]) rfl rfl
    (by
      intro s hs
      simp only [List.mem_singleton] at hs
      subst hs
      rfl)
  exact ⟨h.1, h.2 (.obj [("data", .null)]) rfl⟩

/-- Claim C2: for a song with a stored job id and null `audioUrl`, a provider
response `{data: {data: [{audio_url: X}], callbackType: "complete"}}` makes
the poll persist `X` and answer success with `X`; the same shape with any
other `callbackType` answers running; a completion marker with no normalized
URL answers running; and the URL normalization prefers the first element of
an array-valued `data` field, then a bare object `data.audio_url`, then a
top-level `audio_url`. -/
theorem poll_normalization (store : List Song) (id : String) (s : Song) (j X : String)
    (hs : getSong store id = some s) (hurl : s.audioUrl = none)
    (hj : s.sunoJobId = some j) (hjne : j ≠ "") (hX : X ≠ "") :
    (pollAudio store id (.returns (pollShape X "complete"))
        = ((updateSong store id (audioPatch (.str X))).1, .success (.str X))
      ∧ getSong (pollAudio store id (.returns (pollShape X "complete"))).1 id
          = some { s with audioUrl := some (.str X) })
    ∧ (∀ ct, ct ≠ "complete" →
        pollAudio store id (.returns (pollShape X ct)) = (store, .running))
    ∧ (∀ sunoData, normAudioUrl (taskDataOf sunoData) = none →
        pollAudio store id (.returns sunoData) = (store, .running))
    ∧ (∀ Z, normAudioUrl (.obj [("data", .arr [.obj [("audio_url", .str X)]]),
          ("audio_url", .str Z)]) = some (.str X))
    ∧ (∀ Y Z, Y ≠ "" → normAudioUrl (.obj [("data", .obj [("audio_url", .str Y)]),
          ("audio_url", .str Z)]) = some (.str Y))
    ∧ (∀ Z, Z ≠ "" → normAudioUrl (.obj [("audio_url", .str Z)]) = some (.str Z)) := by
  have hjt : optStrTruthy (some j) = true := by simp [optStrTruthy, hjne]
  have hpoll : ∀ prov, pollAudio store id prov
      = pollAudio.pollAudioFetch store id (some j) prov := by
    intro prov
    unfold pollAudio
    dsimp only
    rw [hs]
    simp only [Option.some_bind]
    rw [hurl, hj]
  have hfetch : ∀ sd, pollAudio.pollAudioFetch store id (some j) (.returns sd)
      = (match normAudioUrl (taskDataOf sd) with
         | some u => if isStrEq ((taskDataOf sd).get "callbackType") "complete"
                     then ((updateSong store id (audioPatch u)).1, .success u)
                     else (store, .running)
         | none => (store, .running)) := by
    intro sd
    unfold pollAudio.pollAudioFetch
    rw [if_pos hjt]
  have htd : ∀ ct, taskDataOf (pollShape X ct)
      = .obj [("data", .arr [.obj [("audio_url", .str X)]]), ("callbackType", .str ct)] :=
    fun ct => rfl
  have hnorm : ∀ ct, normAudioUrl (taskDataOf (pollShape X ct)) = some (.str X) := by
    intro ct
    rw [htd]
    simp [normAudioUrl, Js.get, truthyOpt, Js.truthy, hX]
  have hcbt : ∀ ct, isStrEq ((taskDataOf (pollShape X ct)).get "callbackType") "complete"
      = decide (ct = "complete") := fun ct => by rw [htd]; rfl
  have h1 : pollAudio store id (.returns (pollShape X "complete"))
      = ((updateSong store id (audioPatch (.str X))).1, .success (.str X)) := by
    rw [hpoll, hfetch, hnorm]
    rw [hcbt]
    simp
  refine ⟨⟨h1, ?_⟩, ?_, ?_, ?_, ?_, ?_⟩
  · rw [h1]
    exact getSong_update_audio (.str X) hs
  · intro ct hct
    rw [hpoll, hfetch, hnorm]
    rw [hcbt]
    simp [hct]
  · intro sd hsd
    rw [hpoll, hfetch, hsd]
  · intro Z
    simp [normAudioUrl, Js.get, truthyOpt, Js.truthy, hX]
  · intro Y Z hY
    simp [normAudioUrl, Js.get, truthyOpt, Js.truthy, hY]
  · intro Z hZ
    simp [normAudioUrl, Js.get, truthyOpt, Js.truthy, hZ]

/-- Witness for C2 at a concrete one-song store and a concrete URL. -/
theorem poll_normalization_witness :
    pollAudio [songA] "id1" (.returns (pollShape "http://a" "complete"))
      = ((updateSong [songA] "id1" (audioPatch (.str "http://a"))).1,
         .success (.str "http://a")) :=
  (poll_normalization [songA] "id1" songA "job1" "http://a" rfl rfl rfl
    (by decide) (by decide)).1.1

lemma allButAudio_refl (a : Song) : allButAudio a a :=
  ⟨rfl, rfl, rfl, rfl, rfl, rfl, rfl, rfl, rfl, rfl, rfl⟩

lemma allButAudio_patch (s : Song) (u : Js) :
    allButAudio s (applyPatch s (audioPatch u)) := by
  rw [applyPatch_audio]
  exact ⟨rfl, rfl, rfl, rfl, rfl, rfl, rfl, rfl, rfl, rfl, rfl⟩

lemma forall2_frame_refl (store : List Song) (P : Song → Prop) :
    List.Forall₂ (fun a b => allButAudio a b ∧ (P a → b = a)) store store :=
  List.forall₂_same.mpr (fun a _ => ⟨allButAudio_refl a, fun _ => rfl⟩)

lemma frame_update_audio (store : List Song) (hn : NodupIds store) (id : String) (u : Js) :
    List.Forall₂ (fun a b => allButAudio a b ∧ (a.id ≠ id → b = a)) store
      (updateSong store id (audioPatch u)).1 := by
  unfold updateSong
  cases hfind : findById store id with
  | none => exact forall2_frame_refl store _
  | some e =>
    dsimp only
    apply forall2_map_self
    intro a ha
    by_cases hid : a.id = id
    · have heq : a = e :=
        nodup_id_inj hn ha (findById_mem hfind) (hid.trans (findById_id hfind).symm)
      subst heq
      rw [if_pos hid]
      exact ⟨allButAudio_patch a u, fun hcon => absurd hid hcon⟩
    · rw [if_neg hid]
      exact ⟨allButAudio_refl a, fun _ => rfl⟩

lemma frame_fetch (store : List Song) (hn : NodupIds store) (id : String)
    (jobId : Option String) (provider : ProviderCall) :
    List.Forall₂ (fun a b => allButAudio a b ∧ (a.id ≠ id → b = a)) store
      (pollAudio.pollAudioFetch store id jobId provider).1 := by
  unfold pollAudio.pollAudioFetch
  split
  · split
    · exact forall2_frame_refl store _
    · dsimp only
      split
      · split
        · exact frame_update_audio store hn id _
        · exact forall2_frame_refl store _
      · exact forall2_frame_refl store _
  · exact forall2_frame_refl store _

/-- Claim C9: whichever resolution path runs (webhook callback or poll), the
resulting store is field-by-field identical to the old one except possibly
for `audioUrl`; the webhook leaves every song whose `jobId` does not match
the payload fully unchanged, and the poll leaves every song with a different
id fully unchanged. -/
theorem resolution_writes_only_audio (store : List Song) (hn : NodupIds store) :
    (∀ body, List.Forall₂
        (fun a b => allButAudio a b
          ∧ (strictEqJobId (bodyTaskId body) a.sunoJobId = false → b = a))
        store (sunoCallback store body).1)
    ∧ (∀ id provider, List.Forall₂
        (fun a b => allButAudio a b ∧ (a.id ≠ id → b = a))
        store (pollAudio store id provider).1) := by
  constructor
  · intro body
    unfold sunoCallback
    cases hd : body.get "data" with
    | none => exact forall2_frame_refl store _
    | some data =>
      dsimp only
      by_cases hnull : data.isNull = true
      · rw [if_pos hnull]
        exact forall2_frame_refl store _
      · rw [if_neg hnull]
        cases hf : List.find? (fun s => strictEqJobId (data.get "task_id") s.sunoJobId)
            (getSongs store) with
        | none => exact forall2_frame_refl store _
        | some song =>
          cases hca : callbackAudio data with
          | none => exact forall2_frame_refl store _
          | some u =>
            have hsong : song ∈ store := mem_getSongs.mp (List.mem_of_find?_eq_some hf)
            have hfind : findById store song.id = some song := findById_self_of_nodup hn hsong
            have hps : strictEqJobId (data.get "task_id") song.sunoJobId = true := by
              have h2 := List.find?_some hf
              simpa using h2
            have hbt : bodyTaskId body = data.get "task_id" := by
              unfold bodyTaskId
              rw [hd]
              rfl
            dsimp only
            rw [updateSong_found _ hfind]
            dsimp only
            apply forall2_map_self
            intro a ha
            by_cases hid : a.id = song.id
            · have heq : a = song := nodup_id_inj hn ha hsong hid
              rw [if_pos hid]
              refine ⟨heq ▸ allButAudio_patch song u, fun hnm => ?_⟩
              rw [hbt, heq, hps] at hnm
              cases hnm
            · rw [if_neg hid]
              exact ⟨allButAudio_refl a, fun _ => rfl⟩
  · intro id provider
    unfold pollAudio
    dsimp only
    cases hb : (getSong store id).bind Song.audioUrl with
    | none => exact frame_fetch store hn id _ provider
    | some stored =>
      dsimp only
      by_cases ht : stored.truthy = true
      · rw [if_pos ht]
        exact forall2_frame_refl store _
      · rw [if_neg ht]
        exact frame_fetch store hn id _ provider

/-- Witness for C9 on a concrete one-song store. -/
theorem resolution_writes_only_audio_witness :
    List.Forall₂
      (fun a b => allButAudio a b
        ∧ (strictEqJobId (bodyTaskId okBodyA) a.sunoJobId = false → b = a))
      [songA] (sunoCallback [songA] okBodyA).1 :=
  (resolution_writes_only_audio [songA] (by simp [NodupIds])).1 okBodyA

/-- Claim C1: delivering the same completion webhook twice leaves both the
store and the response exactly as after delivering it once (the second
delivery finds the already-updated song and writes the same URL again, a
no-op on the state); and once a song's `audioUrl` is set, further polling
leaves the stored state untouched. -/
theorem webhook_delivery_idempotent (store : List Song) (body : Js)
    (hn : NodupIds store) (hu : UniqueJobMatch store (bodyTaskId body)) :
    sunoCallback (sunoCallback store body).1 body = sunoCallback store body
    ∧ (∀ id s u provider, getSong store id = some s → s.audioUrl = some u →
        u.truthy → (pollAudio store id provider).1 = store) := by
  constructor
  case right =>
    intro id s u provider hs hurl ht
    unfold pollAudio
    dsimp only
    rw [hs]
    simp only [Option.some_bind]
    rw [hurl]
    dsimp only
    rw [if_pos ht]
  case left =>
    cases hd : body.get "data" with
    | none =>
      have h1 : sunoCallback store body = (store, .serverError) := by
        unfold sunoCallback
        rw [hd]
      rw [h1]
      exact h1
    | some data =>
      have hbt : bodyTaskId body = data.get "task_id" := by
        unfold bodyTaskId
        rw [hd]
        rfl
      by_cases hnull : data.isNull = true
      · have h1 : sunoCallback store body = (store, .serverError) := by
          unfold sunoCallback
          rw [hd]
          dsimp only
          rw [if_pos hnull]
        rw [h1]
        exact h1
      · cases hf : List.find? (fun s => strictEqJobId (data.get "task_id") s.sunoJobId)
            (getSongs store) with
        | none =>
          have h1 : sunoCallback store body = (store, .notFound) := by
            unfold sunoCallback
            rw [hd]
            dsimp only
            rw [if_neg hnull]
            rw [hf]
          rw [h1]
          exact h1
        | some song =>
          cases hca : callbackAudio data with
          | none =>
            have h1 : sunoCallback store body = (store, .received) := by
              unfold sunoCallback
              rw [hd]
              dsimp only
              rw [if_neg hnull]
              rw [hf]
              dsimp only
              rw [hca]
            rw [h1]
            exact h1
          | some u =>
            have hsong : song ∈ store := mem_getSongs.mp (List.mem_of_find?_eq_some hf)
            have hps : strictEqJobId (data.get "task_id") song.sunoJobId = true := by
              have h2 := List.find?_some hf
              simpa using h2
            have hfind : findById store song.id = some song := findById_self_of_nodup hn hsong
            have h1 : sunoCallback store body
                = (store.map (fun s => if s.id = song.id
                    then applyPatch song (audioPatch u) else s), .received) := by
              unfold sunoCallback
              rw [hd]
              dsimp only
              rw [if_neg hnull]
              rw [hf]
              dsimp only
              rw [hca]
              dsimp only
              rw [updateSong_found _ hfind]
            set f : Song → Song :=
              fun s => if s.id = song.id then applyPatch song (audioPatch u) else s with hfdef
            set store1 := store.map f with hstore1
            set song2 := applyPatch song (audioPatch u) with hsong2def
            have hfsong : f song = song2 := by
              rw [hfdef]
              simp
            have hsong2mem : song2 ∈ store1 := by
              rw [hstore1, ← hfsong]
              exact List.mem_map_of_mem f hsong
            have hjob2 : song2.sunoJobId = song.sunoJobId := rfl
            have hid2 : song2.id = song.id := rfl
            have hp2 : strictEqJobId (data.get "task_id") song2.sunoJobId = true := by
              rw [hjob2]
              exact hps
            have hall : ∀ a ∈ store1,
                strictEqJobId (data.get "task_id") a.sunoJobId = true → a = song2 := by
              intro a ha hpa
              rw [hstore1] at ha
              obtain ⟨x, hx, rfl⟩ := List.mem_map.mp ha
              by_cases hxid : x.id = song.id
              · rw [hfdef]
                simp [hxid]
              · have hfx : f x = x := by
                  rw [hfdef]
                  simp [hxid]
                rw [hfx] at hpa ⊢
                have hx2 : x = song := hu x hx song hsong (by rw [hbt]; exact hpa) (by rw [hbt]; exact hps)
                exact absurd (congrArg Song.id hx2) hxid
            have hf2 : List.find? (fun s => strictEqJobId (data.get "task_id") s.sunoJobId)
                (getSongs store1) = some song2 := by
              apply find?_unique (mem_getSongs.mpr hsong2mem) (by simpa using hp2)
              intro a ha b hb hpa hpb
              have ha2 := hall a (mem_getSongs.mp ha) (by simpa using hpa)
              have hb2 := hall b (mem_getSongs.mp hb) (by simpa using hpb)
              rw [ha2, hb2]
            have hnid : ∀ t, (f t).id = t.id := by
              intro t
              rw [hfdef]
              by_cases ht : t.id = song.id
              · simp [ht, hid2]
              · simp [ht]
            have hfind2 : findById store1 song2.id = some song2 := by
              rw [hid2, hstore1, findById_map_presId hnid song.id, hfind]
              simp [hfsong]
            have hidem : applyPatch song2 (audioPatch u) = song2 := by
              rw [hsong2def]
              exact applyPatch_audio_idem song u
            have hg : store1.map (fun s => if s.id = song2.id
                then applyPatch song2 (audioPatch u) else s) = store1 := by
              rw [hidem, hid2, hstore1, List.map_map]
              apply List.map_congr_left
              intro a ha
              dsimp only [Function.comp]
              by_cases hxid : a.id = song.id
              · have hfa : f a = song2 := by
                  rw [hfdef]
                  simp [hxid]
                rw [hfa]
                simp [hid2]
              · have hfa : f a = a := by
                  rw [hfdef]
                  simp [hxid]
                rw [hfa]
                simp [hxid]
            have h2 : sunoCallback store1 body = (store1, .received) := by
              unfold sunoCallback
              rw [hd]
              dsimp only
              rw [if_neg hnull]
              rw [hf2]
              dsimp only
              rw [hca]
              dsimp only
              rw [updateSong_found _ hfind2]
              dsimp only
              rw [hg]
            rw [h1]
            exact h2

/-- Witness for C1 on a concrete one-song store and its completion webhook. -/
theorem webhook_delivery_idempotent_witness :
    sunoCallback (sunoCallback [songA] okBodyA).1 okBodyA = sunoCallback [songA] okBodyA :=
  (webhook_delivery_idempotent [songA] okBodyA (by simp [NodupIds])
    (by
      intro a ha b hb h1 h2
      simp only [List.mem_singleton] at ha hb
      rw [ha, hb])).1
